import Mathlib

/-!
Verification of the svix-test task queue (src/repository.rs, src/main.rs).

The repository layer is embedded shallowly:
* time crate OffsetDateTime is a pair of an absolute instant (seconds) and a
  UTC offset in seconds; the time crate compares by absolute instant and
  is_utc means the offset is zero.
* the Postgres tasks table is a list of rows in scan order; each claim
  transaction is modelled as one atomic state transformation, which is the
  serialization the SELECT ... FOR UPDATE row lock provides.
* fallible database steps (INSERT, COMMIT) carry an explicit success flag so
  both outcomes of the Rust `?` operator are representable; the assert! in
  create_task is modelled as a distinct panicked outcome.
-/

namespace SvixTest

/-- Model of time::OffsetDateTime: absolute instant plus UTC offset (seconds). -/
structure OffsetDateTime where
  instant : Int
  offset : Int
  deriving DecidableEq, Repr

/-- TaskStatus from src/repository.rs. -/
inductive TaskStatus where
  | WaitingToStart
  | WaitingToComplete
  | Completed
  deriving DecidableEq, Repr

/-- TaskStatus::as_str from src/repository.rs. -/
def TaskStatus.as_str : TaskStatus → String
  | .WaitingToStart => "waiting_to_start"
  | .WaitingToComplete => "waiting_to_complete"
  | .Completed => "completed"

/-- TaskStatus::from_timestamps from src/repository.rs: Completed when
completed_at is present, else WaitingToStart when start_at < now (comparison
of absolute instants, as the time crate orders OffsetDateTime), else
WaitingToComplete. -/
def TaskStatus.from_timestamps (start_at : OffsetDateTime)
    (completed_at : Option OffsetDateTime) (now : OffsetDateTime) : TaskStatus :=
  if completed_at.isSome then .Completed
  else if start_at.instant < now.instant then .WaitingToStart
  else .WaitingToComplete

/-- Rank of a status under the ordering WaitingToComplete < WaitingToStart <
Completed used by the monotonicity claim. -/
def TaskStatus.rank : TaskStatus → Nat
  | .WaitingToComplete => 0
  | .WaitingToStart => 1
  | .Completed => 2

/-- One row of the tasks table. Timestamps stored by Postgres are UTC
primitives, modelled as bare instants; id models the uuid primary key. -/
structure TaskRow where
  id : Nat
  created_at : Int
  task_type : String
  start_at : Int
  worker_assigned_at : Option Int
  completed_at : Option Int
  deriving DecidableEq, Repr

/-- The tasks table, rows in the natural scan order of the store. -/
abbrev Store := List TaskRow

/-- WorkerTask from src/repository.rs: what next_worker_task returns. -/
structure WorkerTask where
  id : Nat
  task_type : String
  deriving DecidableEq, Repr

/-- RepositoryError from src/repository.rs (single variant wrapping sqlx). -/
inductive RepositoryError where
  | SqlxError
  deriving DecidableEq, Repr

/-- The WHERE clause of the claim query in next_worker_task:
start_at < now() AND completed_at IS NULL AND worker_assigned_at IS NULL. -/
def eligibleRow (now : Int) (r : TaskRow) : Bool :=
  decide (r.start_at < now) && r.completed_at.isNone && r.worker_assigned_at.isNone

/-- The UPDATE of next_worker_task: SET worker_assigned_at = now() on every
row WHERE id = claimedId. -/
def assignRow (now : Int) (claimedId : Nat) (q : TaskRow) : TaskRow :=
  if q.id = claimedId then { q with worker_assigned_at := some now } else q

/-- Repository::next_worker_task, one whole transaction (the FOR UPDATE row
lock serializes concurrent transactions, so the transaction acts atomically):
select the first row in scan order satisfying the eligibility conditions
(LIMIT 1); if one exists, set its worker_assigned_at to now() and return its
id and type, otherwise leave the table unchanged and return none. Postgres
now() is the transaction timestamp, so the SELECT and the UPDATE share the
single value now. -/
def next_worker_task (s : Store) (now : Int) : Option WorkerTask × Store :=
  match s.find? (eligibleRow now) with
  | some r => (some ⟨r.id, r.task_type⟩, s.map (assignRow now r.id))
  | none => (none, s)

/-- The value next_worker_task hands its caller once tx.commit() resolves:
commit failure propagates through the Rust ? operator as Err, commit success
returns the result computed inside the transaction. -/
def next_worker_task_result (s : Store) (now : Int) (commitOk : Bool) :
    Except RepositoryError (Option WorkerTask) :=
  if commitOk then .ok (next_worker_task s now).1 else .error .SqlxError

/-- The UPDATE of complete_task: SET completed_at = now() on every row
WHERE id = targetId. -/
def completeRow (now : Int) (targetId : Nat) (q : TaskRow) : TaskRow :=
  if q.id = targetId then { q with completed_at := some now } else q

/-- Repository::complete_task: one unconditional UPDATE, returns Ok(())
whether or not any row matched. -/
def complete_task (s : Store) (id : Nat) (now : Int) :
    Except RepositoryError Unit × Store :=
  (.ok (), s.map (completeRow now id))

/-- Outcome of Repository::create_task: the assert! on a non-UTC offset is a
panic, a failed INSERT surfaces as the sqlx error, success returns the new
row id. -/
inductive CreateResult where
  | ok (id : Nat)
  | err (e : RepositoryError)
  | panicked (msg : String)
  deriving DecidableEq, Repr

/-- Repository::create_task: assert!(start_at.offset().is_utc()) first, then
INSERT the row (Postgres supplies created_at and the fresh id; completed_at
and worker_assigned_at default to NULL). The wall clock stored through
PrimitiveDateTime equals the instant because the offset is zero. dbOk models
whether the INSERT round trip succeeds. -/
def create_task (s : Store) (task_type : String) (start_at : OffsetDateTime)
    (newId : Nat) (createdAt : Int) (dbOk : Bool) : CreateResult × Store :=
  if start_at.offset = 0 then
    if dbOk then
      (.ok newId,
        s ++ [{ id := newId, created_at := createdAt, task_type := task_type,
                start_at := start_at.instant, worker_assigned_at := none,
                completed_at := none }])
    else (.err .SqlxError, s)
  else (.panicked "assertion failed: start_at.offset().is_utc()", s)

/-- A serialized trace of next_worker_task transactions against one Store:
the times of the calls in the order the row lock serializes them, returning
the final table and each call's result. -/
def runClaims (s : Store) : List Int → Store × List (Option WorkerTask)
  | [] => (s, [])
  | now :: rest =>
    let step := next_worker_task s now
    let tail := runClaims step.2 rest
    (tail.1, step.1 :: tail.2)

/-- The task identifiers returned across a list of claim results. -/
def returnedIds (results : List (Option WorkerTask)) : List Nat :=
  results.filterMap (fun o => o.map WorkerTask.id)

/-- AppError from src/main.rs (the JSON-rejection variant lives in the axum
extractor layer and never reaches the handler body, so it is omitted). -/
inductive AppError where
  | RepositoryError (e : SvixTest.RepositoryError)
  | ValidationRejection (message : String)
  | NotFound
  deriving DecidableEq, Repr

/-- The HTTP status code IntoResponse for AppError assigns in src/main.rs. -/
def AppError.status : AppError → Nat
  | .RepositoryError _ => 500
  | .ValidationRejection _ => 400
  | .NotFound => 404

/-- Model of OffsetDateTime::checked_to_offset(UtcOffset::UTC) from the time
crate: the absolute instant is unchanged and the offset becomes zero; the
conversion fails exactly when the resulting UTC datetime falls outside the
representable year range -9999..=9999 of the crate (the bounds below are the
unix timestamps of its endpoints). -/
def OffsetDateTime.checked_to_offset_utc (t : OffsetDateTime) : Option OffsetDateTime :=
  if -377705116800 ≤ t.instant ∧ t.instant ≤ 253402300799 then
    some { instant := t.instant, offset := 0 }
  else none

/-- Deserialized body of POST /tasks. -/
structure TasksCreateParams where
  task_type : String
  start_at : OffsetDateTime
  deriving DecidableEq, Repr

/-- Outcome of the tasks_create handler: success with the new id, an
AppError (rendered through AppError.status), or a propagated panic. -/
inductive TasksCreateOutcome where
  | ok (id : Nat)
  | err (e : AppError)
  | panicked (msg : String)
  deriving DecidableEq, Repr

/-- The tasks_create handler from src/main.rs: reject a task type outside
the allow-set foo, bar, baz with a validation error; convert start_at to UTC,
rejecting a failed conversion with a validation error; otherwise call
Repository::create_task. The trailing Bool records whether the Repository
was called. -/
def tasks_create (s : Store) (params : TasksCreateParams) (newId : Nat)
    (createdAt : Int) (dbOk : Bool) : TasksCreateOutcome × Store × Bool :=
  if params.task_type = "foo" ∨ params.task_type = "bar" ∨ params.task_type = "baz" then
    match params.start_at.checked_to_offset_utc with
    | some start_at =>
      match create_task s params.task_type start_at newId createdAt dbOk with
      | (.ok id, s2) => (.ok id, s2, true)
      | (.err e, s2) => (.err (.RepositoryError e), s2, true)
      | (.panicked m, s2) => (.panicked m, s2, true)
    | none => (.err (.ValidationRejection "Could not convert start_at to UTC"), s, false)
  else
    (.err (.ValidationRejection "Task type not supported"), s, false)

/-- Claim C3: from_timestamps is total with exactly the three status values,
and a present completed_at forces Completed regardless of start_at and now. -/
theorem claim3_status_total_and_completed (start_at : OffsetDateTime)
    (completed_at : Option OffsetDateTime) (now : OffsetDateTime) :
    (TaskStatus.from_timestamps start_at completed_at now = .WaitingToStart ∨
     TaskStatus.from_timestamps start_at completed_at now = .WaitingToComplete ∨
     TaskStatus.from_timestamps start_at completed_at now = .Completed) ∧
    (completed_at.isSome = true →
      TaskStatus.from_timestamps start_at completed_at now = .Completed) := by
  unfold TaskStatus.from_timestamps
  refine ⟨?_, ?_⟩
  · split_ifs <;> simp
  · intro h
    simp [h]

/-- Witness for C3 at a concrete input with completed_at present. -/
theorem claim3_witness :
    TaskStatus.from_timestamps ⟨2, 0⟩ (some ⟨5, 0⟩) ⟨2, 0⟩ = .Completed :=
  (claim3_status_total_and_completed ⟨2, 0⟩ (some ⟨5, 0⟩) ⟨2, 0⟩).2 rfl

/-- Claim C4: at the boundary where start_at and now denote the same instant
and completed_at is absent, the status is WaitingToComplete, because the
readiness comparison is strict. -/
theorem claim4_boundary_strict (start_at now : OffsetDateTime)
    (h : start_at.instant = now.instant) :
    TaskStatus.from_timestamps start_at none now = .WaitingToComplete := by
  unfold TaskStatus.from_timestamps
  simp [h]

/-- Witness for C4 at the concrete instant 7. -/
theorem claim4_witness :
    TaskStatus.from_timestamps ⟨7, 3⟩ none ⟨7, 0⟩ = .WaitingToComplete :=
  claim4_boundary_strict ⟨7, 3⟩ ⟨7, 0⟩ rfl

/-- Claim C5: a commit failure in next_worker_task reaches the caller as the
RepositoryError, while only a successful commit yields the Ok outcome that
carries the optional task, so no-work and failed-claim are distinct
constructors of the result. -/
theorem claim5_commit_failure_is_error (s : Store) (now : Int) :
    next_worker_task_result s now false = .error .SqlxError ∧
    next_worker_task_result s now true = .ok (next_worker_task s now).1 := by
  exact ⟨rfl, rfl⟩

/-- Witness for C5 at a concrete store and time. -/
theorem claim5_witness :
    next_worker_task_result [] 0 false = .error .SqlxError :=
  (claim5_commit_failure_is_error [] 0).1

/-- Every row of the table carrying this id is already assigned to a worker. -/
def assignedAll (s : Store) (i : Nat) : Prop :=
  ∀ r ∈ s, r.id = i → r.worker_assigned_at ≠ none

theorem assignedAll_next (s : Store) (now : Int) (i : Nat) (h : assignedAll s i) :
    assignedAll (next_worker_task s now).2 i := by
  unfold next_worker_task
  cases hf : s.find? (eligibleRow now) with
  | none => exact h
  | some r =>
    intro q hq hqi
    obtain ⟨q0, hq0, rfl⟩ := List.mem_map.mp hq
    unfold assignRow at hqi ⊢
    by_cases hid : q0.id = r.id
    · simp [hid]
    · simp only [if_neg hid] at hqi ⊢
      exact h q0 hq0 hqi

theorem assignedAll_after_claim (s : Store) (now : Int) (wt : WorkerTask)
    (h : (next_worker_task s now).1 = some wt) :
    assignedAll (next_worker_task s now).2 wt.id := by
  unfold next_worker_task at h ⊢
  cases hf : s.find? (eligibleRow now) with
  | none => simp [hf] at h
  | some r =>
    rw [hf] at h
    simp only at h
    injection h with h
    subst h
    intro q hq hqi
    obtain ⟨q0, hq0, rfl⟩ := List.mem_map.mp hq
    unfold assignRow at hqi ⊢
    by_cases hid : q0.id = r.id
    · simp [hid]
    · simp only [if_neg hid] at hqi
      exact absurd hqi hid

theorem claim_ne_of_assignedAll (s : Store) (now : Int) (i : Nat)
    (h : assignedAll s i) (wt : WorkerTask)
    (hc : (next_worker_task s now).1 = some wt) : wt.id ≠ i := by
  unfold next_worker_task at hc
  cases hf : s.find? (eligibleRow now) with
  | none => simp [hf] at hc
  | some r =>
    rw [hf] at hc
    simp only at hc
    injection hc with hc
    subst hc
    intro hri
    have hr : r ∈ s := List.mem_of_find?_eq_some hf
    have he : eligibleRow now r = true := List.find?_some hf
    simp only [eligibleRow, Bool.and_eq_true, Option.isNone_iff_eq_none,
      decide_eq_true_eq] at he
    exact h r hr hri he.2

theorem runClaims_not_mem (s : Store) (nows : List Int) (i : Nat)
    (h : assignedAll s i) :
    i ∉ returnedIds (runClaims s nows).2 := by
  induction nows generalizing s with
  | nil => simp [runClaims, returnedIds]
  | cons now rest ih =>
    simp only [runClaims, returnedIds, List.filterMap_cons]
    cases hc : (next_worker_task s now).1 with
    | none =>
      simpa [returnedIds] using ih (next_worker_task s now).2 (assignedAll_next s now i h)
    | some wt =>
      simp only [Option.map_some', List.mem_cons, not_or]
      refine ⟨?_, ?_⟩
      · exact fun hi => (claim_ne_of_assignedAll s now i h wt hc) (hi ▸ rfl)
      · simpa [returnedIds] using ih (next_worker_task s now).2 (assignedAll_next s now i h)

/-- Claim C1: claim transactions on one Store are serialized by the row lock,
so an arbitrary trace of next_worker_task calls is a sequence of atomic
transactions; across any such trace every task identifier is returned at
most once — no two calls ever return the same task. -/
theorem claim1_each_task_claimed_at_most_once (s : Store) (nows : List Int) :
    (returnedIds (runClaims s nows).2).Nodup := by
  induction nows generalizing s with
  | nil => simp [runClaims, returnedIds]
  | cons now rest ih =>
    simp only [runClaims, returnedIds, List.filterMap_cons]
    cases hc : (next_worker_task s now).1 with
    | none =>
      simpa [returnedIds] using ih (next_worker_task s now).2
    | some wt =>
      simp only [Option.map_some', List.nodup_cons]
      refine ⟨?_, ?_⟩
      · exact runClaims_not_mem (next_worker_task s now).2 rest wt.id
          (assignedAll_after_claim s now wt hc)
      · simpa [returnedIds] using ih (next_worker_task s now).2

/-- Witness for C1: two eligible tasks, three claim calls, distinct ids. -/
theorem claim1_witness :
    (returnedIds (runClaims
      [⟨1, 0, "foo", 0, none, none⟩, ⟨2, 0, "bar", 0, none, none⟩]
      [5, 6, 7]).2).Nodup :=
  claim1_each_task_claimed_at_most_once
    [⟨1, 0, "foo", 0, none, none⟩, ⟨2, 0, "bar", 0, none, none⟩] [5, 6, 7]

/-- Claim C2: next_worker_task returns none exactly when no row satisfies
start_at < now, completed_at null and worker_assigned_at null (and then the
table is unchanged), and when it returns a task there is a row of the table
with that id and type satisfying all three conditions at selection time,
whose worker_assigned_at is set to the transaction instant in the resulting
table. -/
theorem claim2_next_worker_task_contract (s : Store) (now : Int) :
    ((next_worker_task s now).1 = none ↔
      ∀ r ∈ s, ¬(r.start_at < now ∧ r.completed_at = none ∧
        r.worker_assigned_at = none)) ∧
    ((next_worker_task s now).1 = none → (next_worker_task s now).2 = s) ∧
    (∀ wt, (next_worker_task s now).1 = some wt →
      (∃ r ∈ s, r.id = wt.id ∧ r.task_type = wt.task_type ∧ r.start_at < now ∧
        r.completed_at = none ∧ r.worker_assigned_at = none) ∧
      (∀ q ∈ (next_worker_task s now).2, q.id = wt.id →
        q.worker_assigned_at = some now) ∧
      (∀ q ∈ (next_worker_task s now).2, q.id ≠ wt.id → q ∈ s)) := by
  unfold next_worker_task
  cases hf : s.find? (eligibleRow now) with
  | none =>
    have hempty : ∀ r ∈ s, ¬(r.start_at < now ∧ r.completed_at = none ∧
        r.worker_assigned_at = none) := by
      intro r hr hcond
      have hfind := List.find?_eq_none.mp hf r hr
      simp only [eligibleRow, Bool.and_eq_true, Option.isNone_iff_eq_none,
        decide_eq_true_eq] at hfind
      exact hfind ⟨⟨hcond.1, hcond.2.1⟩, hcond.2.2⟩
    refine ⟨iff_of_true rfl hempty, fun _ => rfl, ?_⟩
    intro wt hwt
    simp at hwt
  | some r =>
    have hr : r ∈ s := List.mem_of_find?_eq_some hf
    have he : eligibleRow now r = true := List.find?_some hf
    simp only [eligibleRow, Bool.and_eq_true, Option.isNone_iff_eq_none,
      decide_eq_true_eq] at he
    have hcond : r.start_at < now ∧ r.completed_at = none ∧
        r.worker_assigned_at = none := ⟨he.1.1, he.1.2, he.2⟩
    refine ⟨iff_of_false (by simp) ?_, ?_, ?_⟩
    · intro hall
      exact hall r hr hcond
    · intro hnone
      simp at hnone
    · intro wt hwt
      simp only at hwt
      injection hwt with hwt
      subst hwt
      refine ⟨⟨r, hr, rfl, rfl, hcond.1, hcond.2.1, hcond.2.2⟩, ?_, ?_⟩
      · intro q hq hqi
        obtain ⟨q0, hq0, rfl⟩ := List.mem_map.mp hq
        unfold assignRow at hqi ⊢
        by_cases hid : q0.id = r.id
        · simp [hid]
        · simp only [if_neg hid] at hqi
          exact absurd hqi hid
      · intro q hq hqi
        obtain ⟨q0, hq0, rfl⟩ := List.mem_map.mp hq
        unfold assignRow at hqi ⊢
        by_cases hid : q0.id = r.id
        · simp only [if_pos hid] at hqi
          exact absurd hid (by simpa using hqi)
        · simpa [if_neg hid] using hq0

/-- Witness for C2: on a one-row eligible store the claim returns the row. -/
theorem claim2_witness :
    ∃ r ∈ ([⟨3, 0, "baz", 1, none, none⟩] : Store), r.id = 3 ∧
      r.task_type = "baz" ∧ r.start_at < 2 ∧ r.completed_at = none ∧
      r.worker_assigned_at = none :=
  ((claim2_next_worker_task_contract [⟨3, 0, "baz", 1, none, none⟩] 2).2.2
    ⟨3, "baz"⟩ rfl).1

/-- Claim C6 counterexample: a non-UTC start_at (offset 3600 seconds) makes
create_task panic on its assertion — the outcome is the panic, not the typed
RepositoryError failure the claim asserts — while the Store is untouched. -/
theorem claim6_counterexample :
    (create_task [] "foo" ⟨0, 3600⟩ 0 0 true).1 =
      .panicked "assertion failed: start_at.offset().is_utc()" ∧
    (create_task [] "foo" ⟨0, 3600⟩ 0 0 true).1 ≠
      .err RepositoryError.SqlxError ∧
    (create_task [] "foo" ⟨0, 3600⟩ 0 0 true).2 = [] := by
  refine ⟨rfl, by decide, rfl⟩

/-- Claim C6 as amended: for every start_at whose offset is not UTC,
create_task fails before touching the Store — it performs no insert and
leaves the table unchanged — but it does so by panicking on the assertion,
not by returning a typed RepositoryError failure. -/
theorem claim6_amended_nonutc_panics_before_insert (s : Store)
    (task_type : String) (start_at : OffsetDateTime) (newId : Nat)
    (createdAt : Int) (dbOk : Bool) (h : start_at.offset ≠ 0) :
    (create_task s task_type start_at newId createdAt dbOk).1 =
      .panicked "assertion failed: start_at.offset().is_utc()" ∧
    (create_task s task_type start_at newId createdAt dbOk).2 = s := by
  unfold create_task
  simp [h]

/-- Witness for the amended C6 at offset 3600. -/
theorem claim6_witness :
    (create_task [] "bar" ⟨0, 3600⟩ 1 2 true).2 = [] :=
  (claim6_amended_nonutc_panics_before_insert [] "bar" ⟨0, 3600⟩ 1 2 true
    (by decide)).2

/-- Claim C7: complete_task succeeds unconditionally — with no check that
the task was ever claimed — and after two calls on the same identifier both
of which returned Ok, every row with that identifier carries the second
call's timestamp: the first timestamp is overwritten, so completion is not
idempotent. -/
theorem claim7_complete_twice_overwrites (s : Store) (id : Nat)
    (t1 t2 : Int) :
    (complete_task s id t1).1 = .ok () ∧
    (complete_task (complete_task s id t1).2 id t2).1 = .ok () ∧
    (∀ r ∈ (complete_task (complete_task s id t1).2 id t2).2,
      r.id = id → r.completed_at = some t2) := by
  refine ⟨rfl, rfl, ?_⟩
  intro r hr hid
  simp only [complete_task, List.mem_map] at hr
  obtain ⟨q1, hq1, rfl⟩ := hr
  obtain ⟨q0, hq0, rfl⟩ := hq1
  by_cases h0 : q0.id = id
  · simp [completeRow, h0]
  · simp [completeRow, h0] at hid

/-- Witness for C7: one concrete row completed at 10 and again at 20. -/
theorem claim7_witness :
    (⟨5, 0, "foo", 0, none, some 20⟩ : TaskRow).completed_at = some 20 :=
  (claim7_complete_twice_overwrites [⟨5, 0, "foo", 0, none, none⟩] 5 10 20).2.2
    ⟨5, 0, "foo", 0, none, some 20⟩ (by simp [complete_task, completeRow]) rfl

/-- Claim C8: for a fixed start_at, under the ordering WaitingToComplete <
WaitingToStart < Completed, if now does not go backwards and completed_at is
unchanged or goes from absent to present, the derived status never goes
backwards. -/
theorem claim8_status_monotone (start_at : OffsetDateTime)
    (c1 c2 : Option OffsetDateTime) (n1 n2 : OffsetDateTime)
    (hn : n1.instant ≤ n2.instant)
    (hc : c1 = c2 ∨ (c1 = none ∧ c2.isSome = true)) :
    (TaskStatus.from_timestamps start_at c1 n1).rank ≤
      (TaskStatus.from_timestamps start_at c2 n2).rank := by
  unfold TaskStatus.from_timestamps
  rcases hc with rfl | ⟨rfl, h2⟩
  · by_cases hs : c1.isSome = true
    · simp [hs, TaskStatus.rank]
    · simp only [hs, if_false]
      by_cases h1 : start_at.instant < n1.instant
      · have h2 : start_at.instant < n2.instant := lt_of_lt_of_le h1 hn
        simp [h1, h2, TaskStatus.rank]
      · by_cases h2 : start_at.instant < n2.instant <;>
          simp [h1, h2, TaskStatus.rank]
  · simp only [h2, if_true, Option.isSome_none, Bool.false_eq_true, if_false]
    by_cases h1 : start_at.instant < n1.instant <;>
      simp [h1, TaskStatus.rank]

/-- Witness for C8: completed_at appears between the two observations. -/
theorem claim8_witness :
    (TaskStatus.from_timestamps ⟨5, 0⟩ none ⟨3, 0⟩).rank ≤
      (TaskStatus.from_timestamps ⟨5, 0⟩ (some ⟨9, 0⟩) ⟨7, 0⟩).rank :=
  claim8_status_monotone ⟨5, 0⟩ none (some ⟨9, 0⟩) ⟨3, 0⟩ ⟨7, 0⟩ (by decide)
    (Or.inr ⟨rfl, rfl⟩)

/-- Claim C9: a create request whose task type lies outside the allow-set
foo, bar, baz is answered by tasks_create with the validation error whose
status code is 400 and whose message reports the unsupported type; the
Repository is not called and the Store is unchanged. -/
theorem claim9_unsupported_type_rejected (s : Store) (p : TasksCreateParams)
    (newId : Nat) (createdAt : Int) (dbOk : Bool)
    (h : p.task_type ≠ "foo" ∧ p.task_type ≠ "bar" ∧ p.task_type ≠ "baz") :
    tasks_create s p newId createdAt dbOk =
      (.err (.ValidationRejection "Task type not supported"), s, false) ∧
    AppError.status (.ValidationRejection "Task type not supported") = 400 := by
  unfold tasks_create
  simp [h.1, h.2.1, h.2.2, AppError.status]

/-- Witness for C9 at the unsupported type qux. -/
theorem claim9_witness :
    tasks_create [] ⟨"qux", ⟨0, 0⟩⟩ 0 0 true =
      (.err (.ValidationRejection "Task type not supported"), [], false) :=
  (claim9_unsupported_type_rejected [] ⟨"qux", ⟨0, 0⟩⟩ 0 0 true
    ⟨by decide, by decide, by decide⟩).1

/-- Claim C10: complete_task on an identifier matching no row still returns
Ok — the unconditional UPDATE matches zero rows — and leaves the Store
unchanged, so the caller cannot detect that nothing was completed. -/
theorem claim10_complete_nonexistent_ok (s : Store) (id : Nat) (now : Int)
    (h : ∀ r ∈ s, r.id ≠ id) :
    (complete_task s id now).1 = .ok () ∧ (complete_task s id now).2 = s := by
  refine ⟨rfl, ?_⟩
  unfold complete_task
  have hmap : s.map (completeRow now id) = s.map (fun r => r) :=
    List.map_congr_left (fun r hr => by unfold completeRow; simp [h r hr])
  simpa using hmap

/-- Witness for C10: completing id 2 in a store holding only id 1. -/
theorem claim10_witness :
    (complete_task [⟨1, 0, "foo", 0, none, none⟩] 2 9).2 =
      [⟨1, 0, "foo", 0, none, none⟩] :=
  (claim10_complete_nonexistent_ok [⟨1, 0, "foo", 0, none, none⟩] 2 9
    (by decide)).2

end SvixTest
